import Mathlib

/-!
Verification of the Cloudflare multi-endpoint ETL connector
(`etl_connector.py`).

The Python source is shallowly embedded below.  Conventions used
throughout the embedding:

* Python strings that are only parsed character by character (the
  trace-API body) are represented as `List Char`; strings that are
  only concatenated (document identifiers, timestamps) are `String`.
* Python `None` / possible absence is `Option`.
* Python dictionaries whose key set is fixed by the code are Lean
  structures whose fields are `Option`-valued when the code accesses
  them with `.get(key, default)`.
* Floating point quantities (speeds, elapsed times) are modelled as
  exact rationals; Python `round(x, n)` is modelled by `pyRound n`,
  rounding half to even as documented for `round`.
* Network and storage effects are passed in explicitly: `make_request`
  receives the per-attempt outcomes as a function of the attempt
  index, the extractors receive a fetch oracle, the transforms receive
  the current time as a string, and the orchestrator receives the
  outcome of every collaborator call in a `PipelineEnv`.
* Code that can raise an uncaught exception returns `Option`, with
  `none` for the exceptional outcome.
-/

/-! ### HTTP fetcher (`make_request`, lines 102-139) -/

/-- Outcome of one HTTP attempt inside `make_request`: a response with a
status code and body, a timeout, or a transport error. -/
inductive ReqOutcome where
  | response (status : Nat) (body : String)
  | timeout
  | reqError
deriving DecidableEq

/-- One iteration of the retry loop: the loop returns the response body
exactly when the status is 200; a 429 only sleeps and every other
outcome only logs, so all non-200 outcomes fall through to the next
attempt. -/
def attempt_result : ReqOutcome → Option String
  | .response status body => if status = 200 then some body else none
  | .timeout => none
  | .reqError => none

/-- The retry loop of `make_request`: attempt indices `i, i+1, ...` with
`k` attempts remaining. -/
def make_request_go (oracle : Nat → ReqOutcome) : Nat → Nat → Option String
  | _, 0 => none
  | i, Nat.succ k =>
    match attempt_result (oracle i) with
    | some body => some body
    | none => make_request_go oracle (i + 1) k

/-- `make_request` with `retry_attempts` attempts; `oracle n` is the
outcome of attempt number `n` (0-based).  Returns the body of the first
status-200 response, `none` after exhausting all attempts. -/
def make_request (retry_attempts : Nat) (oracle : Nat → ReqOutcome) : Option String :=
  make_request_go oracle 0 retry_attempts

/-! ### DNS status-code table (`_get_dns_response_code`, lines 326-336) -/

/-- The fixed status-code lookup table, `codes.get(status, 'UNKNOWN')`. -/
def _get_dns_response_code (status : Int) : String :=
  if status = 0 then "NOERROR"
  else if status = 1 then "FORMERR"
  else if status = 2 then "SERVFAIL"
  else if status = 3 then "NXDOMAIN"
  else if status = 4 then "NOTIMP"
  else if status = 5 then "REFUSED"
  else "UNKNOWN"

/-! ### Trace-body decoding (`extract_trace_data`, lines 145-171) -/

/-- The whitespace characters removed by Python `str.strip()` (ASCII
part; the code only ever strips ASCII API output). -/
def pyIsSpace (c : Char) : Bool :=
  c = ' ' || c = '\t' || c = '\n' || c = '\r' || c = Char.ofNat 11 || c = Char.ofNat 12

/-- Python `str.strip()` on a character list. -/
def pyStrip (s : List Char) : List Char :=
  ((s.dropWhile pyIsSpace).reverse.dropWhile pyIsSpace).reverse

/-- Python `str.split(sep)`: split at every occurrence of `sep`;
`[] ↦ [[]]`, matching `"".split(sep) == ['']`. -/
def pySplit (sep : Char) : List Char → List (List Char)
  | [] => [[]]
  | c :: rest =>
    match pySplit sep rest with
    | [] => [[]]
    | cur :: others => if c = sep then [] :: cur :: others else (c :: cur) :: others

/-- Python `line.split('=', 1)` restricted to the case used by the
code: `none` when the line has no `=`, otherwise the parts before and
after the first `=`. -/
def splitFirstEq : List Char → Option (List Char × List Char)
  | [] => none
  | c :: rest =>
    if c = '=' then some ([], rest)
    else (splitFirstEq rest).map (fun p => (c :: p.1, p.2))

/-- The per-line step of the trace decoder: `if '=' in line:` followed
by `key, value = line.split('=', 1)` and stripping both parts. -/
def parseTraceLine (line : List Char) : Option (List Char × List Char) :=
  if line.any (fun c => c == '=') then
    match splitFirstEq line with
    | some p => some (pyStrip p.1, pyStrip p.2)
    | none => none
  else none

/-- Python dict assignment `m[k] = v`: updates the value in place if
the key is present (keeping its position), otherwise appends. -/
def dictInsert : List (List Char × List Char) → List Char → List Char →
    List (List Char × List Char)
  | [], k, v => [(k, v)]
  | (k', v') :: rest, k, v =>
    if k' = k then (k', v) :: rest else (k', v') :: dictInsert rest k v

/-- The trace decoding loop (lines 160-164): start from the empty dict
and process each line, skipping lines without `=`. -/
def extract_trace_fields (lines : List (List Char)) : List (List Char × List Char) :=
  lines.foldl
    (fun m line =>
      match parseTraceLine line with
      | some p => dictInsert m p.1 p.2
      | none => m)
    []

/-- `extract_trace_data`: `none` when `make_request` returned no
response, otherwise the decoded key-value mapping of the body
(`response.text.strip().split('\n')`). -/
def extract_trace_data (fetched : Option (List Char)) :
    Option (List (List Char × List Char)) :=
  match fetched with
  | none => none
  | some body => some (extract_trace_fields (pySplit '\n' (pyStrip body)))

/-! ### DNS-over-HTTPS extraction and transform (lines 234-324) -/

/-- One record of the raw `Answer` array; every field is read with
`.get(key, default)`. -/
structure RawAnswer where
  name : Option String
  type : Option Int
  ttl : Option Int
  data : Option String
deriving DecidableEq

/-- One record of the raw `Question` array. -/
structure RawQuestion where
  type : Option Int
deriving DecidableEq

/-- The parsed JSON body of one DoH response, restricted to the keys the
connector reads.  `queried_domain` is set by the extractor. -/
structure RawDoH where
  queried_domain : Option String
  answer : Option (List RawAnswer)
  question : Option (List RawQuestion)
  status : Option Int
  tc : Option Bool
  rd : Option Bool
  ra : Option Bool
  ad : Option Bool
deriving DecidableEq

/-- A normalized answer record (`name`/`type`/`ttl`/`data`). -/
structure DnsAnswer where
  name : String
  type : Int
  ttl : Int
  data : String
deriving DecidableEq

/-- The transformed DNS document (lines 303-319). -/
structure DohDoc where
  _id : String
  query_name : String
  query_type : Int
  status : Int
  response_code : String
  answers : List DnsAnswer
  answer_count : Nat
  truncated : Bool
  recursion_desired : Bool
  recursion_available : Bool
  authenticated_data : Bool
  ingestion_timestamp : String
  etl_version : String
  source_api : String
  raw_data : RawDoH
deriving DecidableEq

/-- The loop body of `transform_doh_data` for one raw item, with the
batch timestamp `t` passed in.  Returns `none` for the one uncaught
exception in the body: `raw_data.get('Question', [{}])[0]` raises
`IndexError` when `Question` is present but empty.  When `Question` is
absent the default `[{}]` makes `[0].get('type', 1)` evaluate to `1`. -/
def transform_doh_item (t : String) (raw : RawDoH) : Option DohDoc :=
  let domain := raw.queried_domain.getD "unknown"
  let answers := (raw.answer.getD []).map
    (fun a => DnsAnswer.mk (a.name.getD "") (a.type.getD 0) (a.ttl.getD 0) (a.data.getD ""))
  let qtype : Option Int :=
    match raw.question with
    | none => some 1
    | some [] => none
    | some (q :: _) => some (q.type.getD 1)
  match qtype with
  | none => none
  | some qt =>
    some
      { _id := "dns_" ++ domain ++ "_" ++ t
        query_name := domain
        query_type := qt
        status := raw.status.getD (-1)
        response_code := _get_dns_response_code (raw.status.getD (-1))
        answers := answers
        answer_count := answers.length
        truncated := raw.tc.getD false
        recursion_desired := raw.rd.getD false
        recursion_available := raw.ra.getD false
        authenticated_data := raw.ad.getD false
        ingestion_timestamp := t
        etl_version := "2.0"
        source_api := "Cloudflare DoH"
        raw_data := raw }

/-- `transform_doh_data`: `current_time` is computed once (parameter
`t`) and the raw items are transformed in order; an item-level
exception propagates and discards the whole batch (`none`). -/
def transform_doh_data (t : String) : List RawDoH → Option (List DohDoc)
  | [] => some []
  | raw :: rest =>
    match transform_doh_item t raw, transform_doh_data t rest with
    | some doc, some docs => some (doc :: docs)
    | _, _ => none

/-- `extract_doh_data` (lines 252-273): `fetch domain` abstracts
`make_request` followed by `response.json()`, `none` covering both a
fetch failure after retries and a per-item exception (both merely skip
the item).  On success the extractor sets `data['queried_domain']`. -/
def extract_doh_data (fetch : String → Option RawDoH) : List String → List RawDoH
  | [] => []
  | domain :: rest =>
    match fetch domain with
    | some data => { data with queried_domain := some domain } :: extract_doh_data fetch rest
    | none => extract_doh_data fetch rest

/-! ### Python rounding on rationals -/

/-- Round a rational to the nearest integer, half to even, as Python
`round` is documented to do. -/
def rhe (x : ℚ) : ℤ :=
  if x - ⌊x⌋ < 1 / 2 then ⌊x⌋
  else if 1 / 2 < x - ⌊x⌋ then ⌊x⌋ + 1
  else if 2 ∣ ⌊x⌋ then ⌊x⌋ else ⌊x⌋ + 1

/-- Python `round(x, nd)` for `nd` decimal digits. -/
def pyRound (nd : Nat) (x : ℚ) : ℚ :=
  (rhe (x * 10 ^ nd) : ℚ) / 10 ^ nd

/-- Python `min` of a list (the empty case never occurs in the code:
the transform is guarded by a non-emptiness check). -/
def pyMin : List ℚ → ℚ
  | [] => 0
  | x :: xs => xs.foldl min x

/-- Python `max` of a list, same convention as `pyMin`. -/
def pyMax : List ℚ → ℚ
  | [] => 0
  | x :: xs => xs.foldl max x

/-! ### Speed-test extraction and transform (lines 366-454) -/

/-- What one successful `make_request` to the speed endpoint yields,
together with the measured wall time: `dataSize` is
`len(response.content)` and `elapsed` the elapsed seconds. -/
structure SpeedFetch where
  dataSize : Nat
  elapsed : ℚ
deriving DecidableEq

/-- One raw speed-test result dict (lines 394-401). -/
structure SpeedSample where
  iteration : Nat
  timestamp : String
  data_size_bytes : Nat
  elapsed_time_seconds : ℚ
  speed_mbps : ℚ
  status_code : Nat
deriving DecidableEq

/-- Builds the result dict of iteration `i`:
`speed_mbps = (data_size * 8) / (elapsed_time * 1_000_000)` rounded to
2 digits, elapsed time rounded to 3.  `status_code` is 200 because
`make_request` only returns status-200 responses. -/
def mkSpeedSample (times : Nat → String) (i : Nat) (f : SpeedFetch) : SpeedSample :=
  { iteration := i + 1
    timestamp := times i
    data_size_bytes := f.dataSize
    elapsed_time_seconds := pyRound 3 f.elapsed
    speed_mbps := pyRound 2 ((f.dataSize * 8 : ℚ) / (f.elapsed * 1000000))
    status_code := 200 }

/-- The iteration loop of `extract_speed_data`: a failed fetch skips
the iteration; `elapsed = 0` models the `ZeroDivisionError` that the
per-iteration `except` catches, also skipping the iteration. -/
def extract_speed_go (fetch : Nat → Option SpeedFetch) (times : Nat → String) :
    Nat → Nat → List SpeedSample
  | _, 0 => []
  | i, Nat.succ k =>
    match fetch i with
    | some f =>
      if f.elapsed = 0 then extract_speed_go fetch times (i + 1) k
      else mkSpeedSample times i f :: extract_speed_go fetch times (i + 1) k
    | none => extract_speed_go fetch times (i + 1) k

/-- `extract_speed_data` with `test_iterations = n`. -/
def extract_speed_data (fetch : Nat → Option SpeedFetch) (times : Nat → String)
    (n : Nat) : List SpeedSample :=
  extract_speed_go fetch times 0 n

/-- The aggregated speed document (lines 438-451). -/
structure SpeedDoc where
  _id : String
  test_timestamp : String
  test_count : Nat
  average_speed_mbps : ℚ
  min_speed_mbps : ℚ
  max_speed_mbps : ℚ
  speed_variance : ℚ
  individual_tests : List SpeedSample
  ingestion_timestamp : String
  etl_version : String
  source_api : String
  raw_data : List SpeedSample
deriving DecidableEq

/-- `transform_speed_data`: `None` for an empty batch, otherwise the
aggregate of the `speed_mbps` values, every statistic rounded to two
digits. -/
def transform_speed_data (t : String) (raw_data_list : List SpeedSample) : Option SpeedDoc :=
  if raw_data_list.isEmpty then none
  else
    let speeds := raw_data_list.map (fun s => s.speed_mbps)
    let avg_speed := speeds.sum / (speeds.length : ℚ)
    let min_speed := pyMin speeds
    let max_speed := pyMax speeds
    some
      { _id := "speed_" ++ t
        test_timestamp := t
        test_count := raw_data_list.length
        average_speed_mbps := pyRound 2 avg_speed
        min_speed_mbps := pyRound 2 min_speed
        max_speed_mbps := pyRound 2 max_speed
        speed_variance := pyRound 2 (max_speed - min_speed)
        individual_tests := raw_data_list
        ingestion_timestamp := t
        etl_version := "2.0"
        source_api := "Cloudflare Speed Test"
        raw_data := raw_data_list }

/-- `x` is an exact multiple of `1/100`, as every `speed_mbps` produced
by `extract_speed_data` is (it is rounded to 2 digits there). -/
def centi (x : ℚ) : Prop := ∃ z : ℤ, x = (z : ℚ) / 100

/-! ### MongoDB loaders (lines 209-228 and 338-360)

Stored documents are abstracted to their `_id` plus an opaque `body`
standing for all remaining fields; a collection is the list of its
documents in insertion order.  The store driver's documented semantics
of `insert_one`/`insert_many`: inserting a document whose `_id` is
already present raises a duplicate-key error; `insert_many` (ordered)
stops at the first failing document, keeping the earlier inserts. -/

/-- A stored document: `_id` plus all other fields, opaque. -/
structure MDoc where
  _id : String
  body : String
deriving DecidableEq

/-- Driver `insert_one`: `none` models the duplicate-key exception. -/
def insert_one (coll : List MDoc) (d : MDoc) : Option (List MDoc) :=
  if coll.any (fun x => x._id == d._id) then none else some (coll ++ [d])

/-- Driver `insert_many` (ordered): returns the new collection state
and whether the whole batch was written. -/
def insert_many (coll : List MDoc) : List MDoc → List MDoc × Bool
  | [] => (coll, true)
  | d :: rest =>
    if coll.any (fun x => x._id == d._id) then (coll, false)
    else insert_many (coll ++ [d]) rest

/-- `load_trace_data`: `insert_one` with the exception caught and
turned into `False` (the collection is unchanged in that case). -/
def load_trace_data (coll : List MDoc) (doc : MDoc) : List MDoc × Bool :=
  match insert_one coll doc with
  | some c => (c, true)
  | none => (coll, false)

/-- `load_doh_data`: `insert_many` with `BulkWriteError` caught and
turned into `False`. -/
def load_doh_data (coll : List MDoc) (docs : List MDoc) : List MDoc × Bool :=
  insert_many coll docs

/-! ### The orchestrator (`run_etl_pipeline`, lines 481-553)

The collaborator outcomes of one run are passed in explicitly: whether
the storage connection succeeds, which sources are enabled, the current
time, each extractor's result (extraction is network I/O) and each
loader's boolean outcome (loading is storage I/O).  The transforms are
the pure functions embedded above and are run for real. -/

/-- Every input `run_etl_pipeline` consumes, network and storage
outcomes included. -/
structure PipelineEnv where
  connectOk : Bool
  includeTrace : Bool
  includeDoh : Bool
  includeSpeed : Bool
  time : String
  traceData : Option (List (List Char × List Char))
  traceLoadOk : Bool
  dohData : List RawDoH
  dohLoadOk : Bool
  speedData : List SpeedSample
  speedLoadOk : Bool

/-- What a non-crashing run returns: the overall success flag, and the
argument of the `load_speed_data` call if one was made (`none` when the
loader was never called for the speed source). -/
structure PipelineRun where
  success : Bool
  speedLoadCall : Option (Option SpeedDoc)
deriving DecidableEq

/-- Lines 509-518: `if trace_data:` is Python truthiness, so both
`None` and an empty dict mark the source failed; otherwise the load
outcome decides. -/
def traceStep (env : PipelineEnv) (success : Bool) : Bool :=
  if env.includeTrace then
    match env.traceData with
    | some d => if d.isEmpty then false else if env.traceLoadOk then success else false
    | none => false
  else success

/-- Lines 521-530: an empty extraction marks the source failed;
otherwise the batch is transformed (an uncaught transform exception,
`none`, aborts the whole run) and the load outcome decides. -/
def dohStep (env : PipelineEnv) (success : Bool) : Option Bool :=
  if env.includeDoh then
    if env.dohData.isEmpty then some false
    else
      match transform_doh_data env.time env.dohData with
      | none => none
      | some _ => some (if env.dohLoadOk then success else false)
  else some success

/-- Lines 533-542: note the guard
`if transformed_speed and not self.load_speed_data(transformed_speed)`,
so the loader is only called when the transform returned a document. -/
def speedStep (env : PipelineEnv) (success : Bool) : Bool × Option (Option SpeedDoc) :=
  if env.includeSpeed then
    if env.speedData.isEmpty then (false, none)
    else
      match transform_speed_data env.time env.speedData with
      | some doc => (if env.speedLoadOk then success else false, some (some doc))
      | none => (success, none)
  else (success, none)

/-- `run_etl_pipeline`: a failed storage connection returns `False`
without attempting any source; otherwise the three source blocks run in
order, threading the mutable `success` flag.  `none` models an uncaught
exception escaping the method. -/
def run_etl_pipeline (env : PipelineEnv) : Option PipelineRun :=
  if env.connectOk then
    match dohStep env (traceStep env true) with
    | none => none
    | some s2 => some ⟨(speedStep env s2).1, (speedStep env s2).2⟩
  else some ⟨false, none⟩

/-! Per-source success outcomes as the spec describes them (a disabled
source counts as vacuously successful). -/

/-- Success outcome of the trace source. -/
def traceSuccess (env : PipelineEnv) : Bool :=
  if env.includeTrace then
    match env.traceData with
    | some d => !d.isEmpty && env.traceLoadOk
    | none => false
  else true

/-- Success outcome of the DoH source. -/
def dohSuccess (env : PipelineEnv) : Bool :=
  if env.includeDoh then !env.dohData.isEmpty && env.dohLoadOk else true

/-- Success outcome of the speed source. -/
def speedSuccess (env : PipelineEnv) : Bool :=
  if env.includeSpeed then
    if env.speedData.isEmpty then false
    else
      match transform_speed_data env.time env.speedData with
      | some _ => env.speedLoadOk
      | none => true
  else true

/-- The speed-loader call a run makes, as a function of the speed
source's inputs alone — earlier sources' outcomes cannot influence it. -/
def speedCallOf (env : PipelineEnv) : Option (Option SpeedDoc) :=
  if env.includeSpeed then
    if env.speedData.isEmpty then none
    else
      match transform_speed_data env.time env.speedData with
      | some doc => some (some doc)
      | none => none
  else none

/-! ### Concrete inputs used by the witnesses -/

/-- A target that is rate limited on attempts 0 and 1 and OK on
attempt 2. -/
def oracle0 : Nat → ReqOutcome :=
  fun i => if i = 2 then .response 200 "ok" else .response 429 "slow"

/-- A raw DoH response for `b.test` with no answer records. -/
def r0 : RawDoH :=
  { queried_domain := some "b.test"
    answer := some []
    question := none
    status := some 0
    tc := some false
    rd := some true
    ra := some true
    ad := some false }

/-- The document `transform_doh_item` produces from `r0` at time
`"T"`. -/
def doc0 : DohDoc :=
  { _id := "dns_b.test_T"
    query_name := "b.test"
    query_type := 1
    status := 0
    response_code := "NOERROR"
    answers := []
    answer_count := 0
    truncated := false
    recursion_desired := true
    recursion_available := true
    authenticated_data := false
    ingestion_timestamp := "T"
    etl_version := "2.0"
    source_api := "Cloudflare DoH"
    raw_data := r0 }

/-- A fetch oracle that fails for every domain except `b.test`. -/
def fetch0 : String → Option RawDoH :=
  fun s => if s = "b.test" then some r0 else none

/-- One concrete speed sample. -/
def s1 : SpeedSample :=
  { iteration := 1
    timestamp := "T"
    data_size_bytes := 1000
    elapsed_time_seconds := 1 / 2
    speed_mbps := 5
    status_code := 200 }

/-- The aggregate document of the one-sample batch `[s1]`. -/
def sd1 : SpeedDoc :=
  { _id := "speed_T"
    test_timestamp := "T"
    test_count := 1
    average_speed_mbps := 5
    min_speed_mbps := 5
    max_speed_mbps := 5
    speed_variance := 0
    individual_tests := [s1]
    ingestion_timestamp := "T"
    etl_version := "2.0"
    source_api := "Cloudflare Speed Test"
    raw_data := [s1] }

/-- A fully successful pipeline environment. -/
def e0 : PipelineEnv :=
  { connectOk := true
    includeTrace := true
    includeDoh := true
    includeSpeed := true
    time := "T"
    traceData := some [(['i', 'p'], ['1'])]
    traceLoadOk := true
    dohData := [r0]
    dohLoadOk := true
    speedData := [s1]
    speedLoadOk := true }

/-- A raw DoH response whose `Question` array is present but empty:
transforming it raises the uncaught `IndexError`. -/
def rBad : RawDoH :=
  { queried_domain := some "b.test"
    answer := some []
    question := some []
    status := some 0
    tc := some false
    rd := some false
    ra := some false
    ad := some false }

/-- A pipeline environment with the connection up and every source
enabled whose DoH batch contains the raising item `rBad`. -/
def eBad : PipelineEnv :=
  { connectOk := true
    includeTrace := true
    includeDoh := true
    includeSpeed := true
    time := "T"
    traceData := some [(['i', 'p'], ['1'])]
    traceLoadOk := true
    dohData := [rBad]
    dohLoadOk := true
    speedData := [s1]
    speedLoadOk := true }

/-! ### Helper lemmas: rounding -/

theorem rhe_intCast (z : ℤ) : rhe (z : ℚ) = z := by
  unfold rhe
  rw [Int.floor_intCast]
  norm_num

theorem rhe_eq_low (z : ℤ) {x : ℚ} (h1 : (z : ℚ) ≤ x) (h2 : x < (z : ℚ) + 1 / 2) :
    rhe x = z := by
  have hf : ⌊x⌋ = z := Int.floor_eq_iff.mpr ⟨h1, by linarith⟩
  unfold rhe
  rw [hf, if_pos (by linarith)]

theorem rhe_eq_high (z : ℤ) {x : ℚ} (h1 : (z : ℚ) + 1 / 2 < x) (h2 : x < (z : ℚ) + 1) :
    rhe x = z + 1 := by
  have hf : ⌊x⌋ = z := Int.floor_eq_iff.mpr ⟨by linarith, by linarith⟩
  unfold rhe
  rw [hf, if_neg (by linarith), if_pos (by linarith)]

theorem floor_le_rhe (x : ℚ) : ⌊x⌋ ≤ rhe x := by
  unfold rhe
  split_ifs <;> omega

theorem rhe_le_floor_add_one (x : ℚ) : rhe x ≤ ⌊x⌋ + 1 := by
  unfold rhe
  split_ifs <;> omega

theorem rhe_mono {x y : ℚ} (h : x ≤ y) : rhe x ≤ rhe y := by
  have hf : ⌊x⌋ ≤ ⌊y⌋ := Int.floor_mono h
  rcases eq_or_lt_of_le hf with heq | hlt
  · unfold rhe
    rw [← heq]
    have hxy : x - (⌊x⌋ : ℚ) ≤ y - (⌊x⌋ : ℚ) := by linarith
    split_ifs <;> first | omega | (exfalso; linarith)
  · calc rhe x ≤ ⌊x⌋ + 1 := rhe_le_floor_add_one x
      _ ≤ ⌊y⌋ := by omega
      _ ≤ rhe y := floor_le_rhe y

theorem pyRound_mono (nd : Nat) {x y : ℚ} (h : x ≤ y) : pyRound nd x ≤ pyRound nd y := by
  have h1 : rhe (x * 10 ^ nd) ≤ rhe (y * 10 ^ nd) :=
    rhe_mono (mul_le_mul_of_nonneg_right h (by positivity))
  have h2 : ((rhe (x * 10 ^ nd) : ℤ) : ℚ) ≤ ((rhe (y * 10 ^ nd) : ℤ) : ℚ) :=
    Int.cast_le.mpr h1
  unfold pyRound
  rw [div_eq_mul_inv, div_eq_mul_inv]
  exact mul_le_mul_of_nonneg_right h2 (by positivity)

theorem pyRound_eq_of_int (nd : Nat) (x : ℚ) (z : ℤ) (hz : x * 10 ^ nd = (z : ℚ)) :
    pyRound nd x = x := by
  unfold pyRound
  rw [hz, rhe_intCast]
  have h10 : ((10 : ℚ) ^ nd) ≠ 0 := by positivity
  rw [div_eq_iff h10]
  exact hz.symm

theorem centi_pyRound {x : ℚ} (h : centi x) : pyRound 2 x = x := by
  obtain ⟨z, hz⟩ := h
  refine pyRound_eq_of_int 2 x z ?_
  rw [hz]
  norm_num

theorem centi_sub {x y : ℚ} (hx : centi x) (hy : centi y) : centi (x - y) := by
  obtain ⟨zx, hzx⟩ := hx
  obtain ⟨zy, hzy⟩ := hy
  exact ⟨zx - zy, by rw [hzx, hzy]; push_cast; ring⟩

/-! ### Helper lemmas: list minimum, maximum, average -/

theorem foldl_min_le_init (xs : List ℚ) (x : ℚ) : xs.foldl min x ≤ x := by
  induction xs generalizing x with
  | nil => simp
  | cons a as ih => exact le_trans (ih (min x a)) (min_le_left x a)

theorem foldl_min_le_mem (xs : List ℚ) (x y : ℚ) (hy : y ∈ xs) : xs.foldl min x ≤ y := by
  induction xs generalizing x with
  | nil => cases hy
  | cons a as ih =>
    rcases List.mem_cons.1 hy with rfl | hy'
    · exact le_trans (foldl_min_le_init as (min x y)) (min_le_right x y)
    · exact ih (min x a) hy'

theorem foldl_min_mem (xs : List ℚ) (x : ℚ) : xs.foldl min x = x ∨ xs.foldl min x ∈ xs := by
  induction xs generalizing x with
  | nil => left; rfl
  | cons a as ih =>
    rcases ih (min x a) with h | h
    · rcases min_choice x a with hc | hc
      · left; rw [List.foldl_cons, h, hc]
      · right; rw [List.foldl_cons, h, hc]; exact List.mem_cons_self a as
    · right; exact List.mem_cons_of_mem a h

theorem foldl_max_init_le (xs : List ℚ) (x : ℚ) : x ≤ xs.foldl max x := by
  induction xs generalizing x with
  | nil => simp
  | cons a as ih => exact le_trans (le_max_left x a) (ih (max x a))

theorem foldl_max_mem_le (xs : List ℚ) (x y : ℚ) (hy : y ∈ xs) : y ≤ xs.foldl max x := by
  induction xs generalizing x with
  | nil => cases hy
  | cons a as ih =>
    rcases List.mem_cons.1 hy with rfl | hy'
    · exact le_trans (le_max_right x y) (foldl_max_init_le as (max x y))
    · exact ih (max x a) hy'

theorem foldl_max_mem (xs : List ℚ) (x : ℚ) : xs.foldl max x = x ∨ xs.foldl max x ∈ xs := by
  induction xs generalizing x with
  | nil => left; rfl
  | cons a as ih =>
    rcases ih (max x a) with h | h
    · rcases max_choice x a with hc | hc
      · left; rw [List.foldl_cons, h, hc]
      · right; rw [List.foldl_cons, h, hc]; exact List.mem_cons_self a as
    · right; exact List.mem_cons_of_mem a h

theorem pyMin_le {x y : ℚ} {xs : List ℚ} (hy : y ∈ x :: xs) : pyMin (x :: xs) ≤ y := by
  unfold pyMin
  rcases List.mem_cons.1 hy with rfl | hy'
  · exact foldl_min_le_init xs y
  · exact foldl_min_le_mem xs x y hy'

theorem le_pyMax {x y : ℚ} {xs : List ℚ} (hy : y ∈ x :: xs) : y ≤ pyMax (x :: xs) := by
  unfold pyMax
  rcases List.mem_cons.1 hy with rfl | hy'
  · exact foldl_max_init_le xs y
  · exact foldl_max_mem_le xs x y hy'

theorem pyMin_mem (x : ℚ) (xs : List ℚ) : pyMin (x :: xs) ∈ x :: xs := by
  show xs.foldl min x ∈ x :: xs
  rcases foldl_min_mem xs x with h | h
  · rw [h]; exact List.mem_cons_self x xs
  · exact List.mem_cons_of_mem x h

theorem pyMax_mem (x : ℚ) (xs : List ℚ) : pyMax (x :: xs) ∈ x :: xs := by
  show xs.foldl max x ∈ x :: xs
  rcases foldl_max_mem xs x with h | h
  · rw [h]; exact List.mem_cons_self x xs
  · exact List.mem_cons_of_mem x h

theorem pyMin_le_avg (x : ℚ) (xs : List ℚ) :
    pyMin (x :: xs) ≤ (x :: xs).sum / (((x :: xs).length : ℕ) : ℚ) := by
  have hlen : (0 : ℚ) < (((x :: xs).length : ℕ) : ℚ) := by
    have : 0 < (x :: xs).length := List.length_pos.2 (List.cons_ne_nil x xs)
    exact_mod_cast this
  rw [le_div_iff₀ hlen]
  have h := List.card_nsmul_le_sum (x :: xs) (pyMin (x :: xs)) (fun y hy => pyMin_le hy)
  rw [nsmul_eq_mul] at h
  linarith [h]

theorem avg_le_pyMax (x : ℚ) (xs : List ℚ) :
    (x :: xs).sum / (((x :: xs).length : ℕ) : ℚ) ≤ pyMax (x :: xs) := by
  have hlen : (0 : ℚ) < (((x :: xs).length : ℕ) : ℚ) := by
    have : 0 < (x :: xs).length := List.length_pos.2 (List.cons_ne_nil x xs)
    exact_mod_cast this
  rw [div_le_iff₀ hlen]
  have h := List.sum_le_card_nsmul (x :: xs) (pyMax (x :: xs)) (fun y hy => le_pyMax hy)
  rw [nsmul_eq_mul] at h
  linarith [h]

/-! ### Helper lemmas: the retry loop -/

theorem make_request_go_zero (oracle : Nat → ReqOutcome) (i : Nat) :
    make_request_go oracle i 0 = none := rfl

theorem make_request_go_succ (oracle : Nat → ReqOutcome) (i k : Nat) :
    make_request_go oracle i (k + 1) =
      match attempt_result (oracle i) with
      | some body => some body
      | none => make_request_go oracle (i + 1) k := rfl

/-! ### Helper lemmas: trace decoding -/

theorem foldl_filter_skip {α β : Type} (f : β → α → β) (p : α → Bool)
    (hf : ∀ b a, p a = false → f b a = b) :
    ∀ (l : List α) (b : β), l.foldl f b = (l.filter p).foldl f b := by
  intro l
  induction l with
  | nil => intro b; rfl
  | cons a as ih =>
    intro b
    cases hp : p a with
    | true => rw [List.foldl_cons, List.filter_cons_of_pos hp, List.foldl_cons, ih]
    | false => rw [List.foldl_cons, List.filter_cons_of_neg (by simp [hp]), hf b a hp, ih]

theorem splitFirstEq_append {a : List Char} (b : List Char)
    (ha : a.any (fun c => c == '=') = false) :
    splitFirstEq (a ++ '=' :: b) = some (a, b) := by
  induction a with
  | nil => simp [splitFirstEq]
  | cons c a' ih =>
    rw [List.any_cons, Bool.or_eq_false_iff] at ha
    have hc : ¬c = '=' := by
      intro h
      rw [h] at ha
      simp at ha
    rw [List.cons_append]
    unfold splitFirstEq
    rw [if_neg hc, ih ha.2]
    rfl

/-! ### Helper lemmas: DoH transform -/

theorem transform_doh_item_fields {t : String} {r : RawDoH} {d : DohDoc}
    (h : transform_doh_item t r = some d) :
    d.ingestion_timestamp = t ∧ d.query_name = r.queried_domain.getD "unknown" ∧
      d._id = "dns_" ++ d.query_name ++ "_" ++ t := by
  unfold transform_doh_item at h
  rcases hq : r.question with _ | (_ | ⟨q, qs⟩) <;> rw [hq] at h
  · cases Option.some.inj h
    exact ⟨rfl, rfl, rfl⟩
  · exact Option.noConfusion h
  · cases Option.some.inj h
    exact ⟨rfl, rfl, rfl⟩

theorem transform_doh_mem {t : String} :
    ∀ {raws : List RawDoH} {docs : List DohDoc},
      transform_doh_data t raws = some docs →
        ∀ d ∈ docs, ∃ r ∈ raws, transform_doh_item t r = some d := by
  intro raws
  induction raws with
  | nil =>
    intro docs h d hd
    cases Option.some.inj h
    cases hd
  | cons r rest ih =>
    intro docs h d hd
    unfold transform_doh_data at h
    cases hi : transform_doh_item t r with
    | none => rw [hi] at h; exact Option.noConfusion h
    | some doc =>
      cases hr : transform_doh_data t rest with
      | none => rw [hi, hr] at h; exact Option.noConfusion h
      | some docs' =>
        rw [hi, hr] at h
        cases Option.some.inj h
        rcases List.mem_cons.1 hd with rfl | hd'
        · exact ⟨r, List.mem_cons_self r rest, hi⟩
        · obtain ⟨r', hr', hi'⟩ := ih hr d hd'
          exact ⟨r', List.mem_cons_of_mem r hr', hi'⟩

/-! ### Helper lemmas: loader -/

theorem any_id_eq_false {coll : List MDoc} {i : String}
    (h : coll.any (fun x => x._id == i) = false) : ∀ x ∈ coll, x._id ≠ i := by
  intro x hx
  rw [List.any_eq_false] at h
  have := h x hx
  simpa using this

theorem append_one_nodup {coll : List MDoc} {d : MDoc}
    (h : (coll.map (fun x => x._id)).Nodup)
    (hd : coll.any (fun x => x._id == d._id) = false) :
    ((coll ++ [d]).map (fun x => x._id)).Nodup := by
  rw [List.map_append, List.nodup_append]
  refine ⟨h, List.nodup_singleton _, ?_⟩
  intro i hi hmem
  simp only [List.map_cons, List.map_nil, List.mem_singleton] at hmem
  obtain ⟨x, hx, hxi⟩ := List.mem_map.1 hi
  exact any_id_eq_false hd x hx (by rw [hxi, hmem])

theorem insert_many_nodup :
    ∀ (docs : List MDoc) (coll : List MDoc),
      (coll.map (fun x => x._id)).Nodup →
        (((insert_many coll docs).1).map (fun x => x._id)).Nodup := by
  intro docs
  induction docs with
  | nil => intro coll h; exact h
  | cons d rest ih =>
    intro coll h
    unfold insert_many
    cases hd : coll.any (fun x => x._id == d._id) with
    | true => exact h
    | false => exact ih (coll ++ [d]) (append_one_nodup h hd)

/-! ### Helper lemmas: orchestrator steps -/

theorem traceStep_eq (env : PipelineEnv) (s : Bool) :
    traceStep env s = (traceSuccess env && s) := by
  unfold traceStep traceSuccess
  cases hT : env.includeTrace
  · simp
  · simp only [if_true]
    cases env.traceData with
    | none => simp
    | some d =>
      cases d with
      | nil => simp [List.isEmpty]
      | cons p rest =>
        cases env.traceLoadOk <;> cases s <;> simp [List.isEmpty]

theorem dohStep_eq (env : PipelineEnv) (s : Bool)
    (h : (transform_doh_data env.time env.dohData).isSome = true) :
    dohStep env s = some (dohSuccess env && s) := by
  unfold dohStep dohSuccess
  cases hD : env.includeDoh
  · simp
  · simp only [if_true]
    cases hl : env.dohData with
    | nil => simp
    | cons r rest =>
      rw [hl] at h
      cases ht : transform_doh_data env.time (r :: rest) with
      | none => rw [ht] at h; simp at h
      | some docs => cases env.dohLoadOk <;> cases s <;> simp

theorem speedStep_eq (env : PipelineEnv) (s : Bool) :
    speedStep env s = (speedSuccess env && s, speedCallOf env) := by
  unfold speedStep speedSuccess speedCallOf
  cases hS : env.includeSpeed
  · simp
  · simp only [if_true]
    cases hl : env.speedData with
    | nil => simp
    | cons a rest =>
      cases ht : transform_speed_data env.time (a :: rest) with
      | none => simp
      | some doc => cases env.speedLoadOk <;> cases s <;> simp

theorem speedCallOf_some {env : PipelineEnv} {arg : Option SpeedDoc}
    (h : speedCallOf env = some arg) :
    ∃ doc, arg = some doc ∧ transform_speed_data env.time env.speedData = some doc := by
  unfold speedCallOf at h
  by_cases hs : env.includeSpeed = true
  · rw [if_pos hs] at h
    by_cases he : env.speedData.isEmpty
    · rw [if_pos he] at h; exact Option.noConfusion h
    · rw [if_neg he] at h
      cases ht : transform_speed_data env.time env.speedData with
      | none => rw [ht] at h; exact Option.noConfusion h
      | some doc => rw [ht] at h; exact ⟨doc, (Option.some.inj h).symm, rfl⟩
  · rw [if_neg hs] at h; exact Option.noConfusion h

/-! ### Claims -/

/-- Claim C1: with a target that is rate limited (status 429) on
attempts 1 and 2 and OK (status 200) on attempt 3, `make_request` with
`max_attempts = 3` returns the OK response body, while with
`max_attempts = 2` it returns the failure value `none`: a rate-limited
attempt consumes one unit of the attempt budget. -/
theorem make_request_rate_limit_budget (oracle : Nat → ReqOutcome) (b0 b1 b2 : String)
    (h0 : oracle 0 = .response 429 b0) (h1 : oracle 1 = .response 429 b1)
    (h2 : oracle 2 = .response 200 b2) :
    make_request 3 oracle = some b2 ∧ make_request 2 oracle = none := by
  have s0 : attempt_result (oracle 0) = none := by rw [h0]; rfl
  have s1 : attempt_result (oracle 1) = none := by rw [h1]; rfl
  have s2 : attempt_result (oracle 2) = some b2 := by rw [h2]; rfl
  constructor
  · show make_request_go oracle 0 (2 + 1) = some b2
    rw [make_request_go_succ, s0]
    show make_request_go oracle 1 (1 + 1) = some b2
    rw [make_request_go_succ, s1]
    show make_request_go oracle 2 (0 + 1) = some b2
    rw [make_request_go_succ, s2]
  · show make_request_go oracle 0 (1 + 1) = none
    rw [make_request_go_succ, s0]
    show make_request_go oracle 1 (0 + 1) = none
    rw [make_request_go_succ, s1]
    rfl

/-- Witness for C1 at the concrete target `oracle0`. -/
theorem make_request_rate_limit_budget_witness :
    make_request 3 oracle0 = some "ok" ∧ make_request 2 oracle0 = none :=
  make_request_rate_limit_budget oracle0 "slow" "slow" "ok" rfl rfl rfl

/-- Claim C8: the DNS response-code mapping returns exactly NOERROR for
0, FORMERR for 1, SERVFAIL for 2, NXDOMAIN for 3, NOTIMP for 4, REFUSED
for 5, and UNKNOWN for every other integer status. -/
theorem dns_response_code_table :
    (_get_dns_response_code 0 = "NOERROR" ∧ _get_dns_response_code 1 = "FORMERR" ∧
      _get_dns_response_code 2 = "SERVFAIL" ∧ _get_dns_response_code 3 = "NXDOMAIN" ∧
      _get_dns_response_code 4 = "NOTIMP" ∧ _get_dns_response_code 5 = "REFUSED") ∧
    ∀ s : Int, ¬(s = 0 ∨ s = 1 ∨ s = 2 ∨ s = 3 ∨ s = 4 ∨ s = 5) →
      _get_dns_response_code s = "UNKNOWN" := by
  refine ⟨⟨rfl, rfl, rfl, rfl, rfl, rfl⟩, ?_⟩
  intro s h
  push_neg at h
  obtain ⟨n0, n1, n2, n3, n4, n5⟩ := h
  simp [_get_dns_response_code, n0, n1, n2, n3, n4, n5]

/-- Witness for C8 at the out-of-table status 7. -/
theorem dns_response_code_table_witness :
    ¬((7 : Int) = 0 ∨ (7 : Int) = 1 ∨ (7 : Int) = 2 ∨ (7 : Int) = 3 ∨ (7 : Int) = 4 ∨
        (7 : Int) = 5) ∧
      _get_dns_response_code 7 = "UNKNOWN" :=
  ⟨by decide, dns_response_code_table.2 7 (by decide)⟩

/-- Claim C9: the key=value decoder ignores every line without `=`
(they are excluded from the mapping without an error), and on a line
with an `=` it splits at the first `=` and trims whitespace from both
the key and the value. -/
theorem trace_decoder_first_eq_trim :
    (∀ lines : List (List Char),
        extract_trace_fields lines =
          extract_trace_fields (lines.filter (fun l => l.any (fun c => c == '=')))) ∧
    (∀ a b : List Char, a.any (fun c => c == '=') = false →
        parseTraceLine (a ++ '=' :: b) = some (pyStrip a, pyStrip b)) := by
  constructor
  · intro lines
    unfold extract_trace_fields
    apply foldl_filter_skip
    intro m line hline
    simp [parseTraceLine, hline]
  · intro a b ha
    have hany : (a ++ '=' :: b).any (fun c => c == '=') = true := by
      rw [List.any_append, List.any_cons]
      simp
    rw [parseTraceLine, if_pos hany, splitFirstEq_append b ha]

/-- Witness for C9: a line whose key and value carry surrounding
blanks. -/
theorem trace_decoder_first_eq_trim_witness :
    (['k', ' '].any (fun c => c == '=') = false) ∧
      parseTraceLine (['k', ' '] ++ '=' :: [' ', 'v']) = some (['k'], ['v']) := by
  constructor
  · decide
  · rw [trace_decoder_first_eq_trim.2 ['k', ' '] [' ', 'v'] (by decide)]
    decide

/-- Claim C10: `transform_doh_data` uses a single ingestion timestamp
for the whole batch; every document carries it, each document's `_id`
is exactly `"dns_" ++ queried_domain ++ "_" ++ timestamp`, and two
documents of one batch with the same `query_name` receive the same
`_id`. -/
theorem transform_doh_shared_timestamp (t : String) (raws : List RawDoH)
    (docs : List DohDoc) (d d' : DohDoc) (h : transform_doh_data t raws = some docs)
    (hd : d ∈ docs) (hd' : d' ∈ docs) :
    d.ingestion_timestamp = t ∧ d'.ingestion_timestamp = d.ingestion_timestamp ∧
      d._id = "dns_" ++ d.query_name ++ "_" ++ t ∧
      (d.query_name = d'.query_name → d._id = d'._id) := by
  obtain ⟨r, _, hi⟩ := transform_doh_mem h d hd
  obtain ⟨r', _, hi'⟩ := transform_doh_mem h d' hd'
  obtain ⟨e1, e2, e3⟩ := transform_doh_item_fields hi
  obtain ⟨e1', e2', e3'⟩ := transform_doh_item_fields hi'
  refine ⟨e1, by rw [e1, e1'], e3, fun hq => ?_⟩
  rw [e3, e3', hq]

/-- Witness for C10: a batch of two identical raw items. -/
theorem transform_doh_shared_timestamp_witness :
    transform_doh_data "T" [r0, r0] = some [doc0, doc0] ∧
      doc0.ingestion_timestamp = "T" ∧
      doc0._id = "dns_" ++ doc0.query_name ++ "_" ++ "T" := by
  have h : transform_doh_data "T" [r0, r0] = some [doc0, doc0] := by rfl
  have h2 := transform_doh_shared_timestamp "T" [r0, r0] [doc0, doc0] doc0 doc0 h
    (List.mem_cons_self _ _) (List.mem_cons_self _ _)
  exact ⟨h, h2.1, h2.2.2.1⟩

/-- Claim C5: over the domain list `["a.test", "b.test"]`, when the
fetch for a.test yields no response after retries and the fetch for
b.test succeeds, extraction followed by transformation yields the
one-element list containing only b.test's transformed document. -/
theorem extract_transform_partial_failure (fetch : String → Option RawDoH) (r : RawDoH)
    (t : String) (doc : DohDoc) (hA : fetch "a.test" = none) (hB : fetch "b.test" = some r)
    (hT : transform_doh_item t { r with queried_domain := some "b.test" } = some doc) :
    transform_doh_data t (extract_doh_data fetch ["a.test", "b.test"]) = some [doc] ∧
      doc.query_name = "b.test" := by
  have he : extract_doh_data fetch ["a.test", "b.test"] =
      [{ r with queried_domain := some "b.test" }] := by
    simp [extract_doh_data, hA, hB]
  constructor
  · rw [he]
    unfold transform_doh_data
    rw [hT]
    rfl
  · have hq := (transform_doh_item_fields hT).2.1
    simpa using hq

/-- Witness for C5 at the concrete oracle `fetch0`. -/
theorem extract_transform_partial_failure_witness :
    fetch0 "a.test" = none ∧ fetch0 "b.test" = some r0 ∧
      transform_doh_data "T" (extract_doh_data fetch0 ["a.test", "b.test"]) = some [doc0] ∧
      doc0.query_name = "b.test" := by
  have hA : fetch0 "a.test" = none := by rfl
  have hB : fetch0 "b.test" = some r0 := by rfl
  have hT : transform_doh_item "T" { r0 with queried_domain := some "b.test" } = some doc0 := by
    rfl
  obtain ⟨hx, hy⟩ := extract_transform_partial_failure fetch0 r0 "T" doc0 hA hB hT
  exact ⟨hA, hB, hx, hy⟩

/-- Counterexample to C4 as stated: a DoH extraction whose only fetch
fails returns the empty list itself — the very value an extraction with
nothing to query returns — and likewise for the speed extractor; these
extractors have no no-result value distinct from the empty result. -/
theorem extract_failure_returns_empty_list :
    extract_doh_data (fun _ => none) ["a.test"] = ([] : List RawDoH) ∧
      extract_doh_data (fun _ => none) [] = ([] : List RawDoH) ∧
      extract_speed_data (fun _ => none) (fun _ => "t") 2 = ([] : List SpeedSample) :=
  ⟨rfl, rfl, rfl⟩

/-- Amended C4: only the trace extractor distinguishes fetch failure
(`none`) from an empty result (`some` of a possibly empty mapping); the
DoH and speed extractors return a plain list from which failed items
are silently dropped, so a run in which every fetch fails returns the
empty list rather than a distinct no-result value. -/
theorem extractor_failure_representation :
    extract_trace_data none = none ∧
      (∀ body : List Char, (extract_trace_data (some body)).isSome = true) ∧
      (∀ domains : List String, extract_doh_data (fun _ => none) domains = []) ∧
      (∀ (times : Nat → String) (n : Nat),
        extract_speed_data (fun _ => none) times n = []) := by
  refine ⟨rfl, fun body => rfl, ?_, ?_⟩
  · intro domains
    induction domains with
    | nil => rfl
    | cons d rest ih => simpa [extract_doh_data] using ih
  · intro times n
    show extract_speed_go (fun _ => none) times 0 n = []
    suffices h : ∀ (k i : Nat), extract_speed_go (fun _ => none) times i k = [] from h n 0
    intro k
    induction k with
    | zero => intro i; rfl
    | succ k ih => intro i; simpa [extract_speed_go] using ih (i + 1)

/-- Counterexample to C3 as stated: the loaders use plain inserts, so
after loading two documents with the same identifier exactly one
document remains but it keeps the FIRST load's field values — the
second load's values do not win, and the second load reports failure. -/
theorem load_insert_second_write_loses :
    (load_trace_data (load_trace_data [] ⟨"x", "v1"⟩).1 ⟨"x", "v2"⟩).1 =
        [(⟨"x", "v1"⟩ : MDoc)] ∧
      (load_trace_data (load_trace_data [] ⟨"x", "v1"⟩).1 ⟨"x", "v2"⟩).2 = false ∧
      (⟨"x", "v1"⟩ : MDoc) ≠ ⟨"x", "v2"⟩ ∧
      (load_doh_data (load_doh_data [] [⟨"x", "v1"⟩]).1 [⟨"x", "v2"⟩]).1 =
        [(⟨"x", "v1"⟩ : MDoc)] := by
  refine ⟨rfl, rfl, by decide, rfl⟩

/-- Amended C3: loading a document and then a second document with the
same identifier leaves exactly one document for that identifier in the
collection, with the first load's field values retained and the second
load reporting failure (the loaders insert, they do not upsert); no
load ever duplicates an identifier. -/
theorem load_same_id_single_doc (d d' : MDoc) (h : d'._id = d._id) :
    (load_trace_data (load_trace_data [] d).1 d').1.filter
        (fun x => x._id == d._id) = [d] ∧
      (load_trace_data (load_trace_data [] d).1 d').2 = false ∧
      (load_doh_data (load_doh_data [] [d]).1 [d']).1.filter
        (fun x => x._id == d._id) = [d] ∧
      (load_doh_data (load_doh_data [] [d]).1 [d']).2 = false ∧
      (∀ (coll : List MDoc) (doc : MDoc), (coll.map (fun x => x._id)).Nodup →
        ((load_trace_data coll doc).1.map (fun x => x._id)).Nodup) ∧
      (∀ (coll : List MDoc) (docs : List MDoc), (coll.map (fun x => x._id)).Nodup →
        ((load_doh_data coll docs).1.map (fun x => x._id)).Nodup) := by
  have hTr : load_trace_data (load_trace_data [] d).1 d' = ([d], false) := by
    have e1 : (load_trace_data [] d).1 = [d] := rfl
    rw [e1]
    unfold load_trace_data insert_one
    simp [h]
  have hDoh : load_doh_data (load_doh_data [] [d]).1 [d'] = ([d], false) := by
    have e1 : (load_doh_data [] [d]).1 = [d] := rfl
    rw [e1]
    unfold load_doh_data insert_many
    simp [h]
  refine ⟨?_, ?_, ?_, ?_, ?_, ?_⟩
  · rw [hTr]; simp
  · rw [hTr]
  · rw [hDoh]; simp
  · rw [hDoh]
  · intro coll doc hnd
    unfold load_trace_data insert_one
    cases ha : coll.any (fun x => x._id == doc._id) with
    | true => simpa using hnd
    | false => exact append_one_nodup hnd ha
  · intro coll docs hnd
    exact insert_many_nodup docs coll hnd

/-- Witness for C3's amended theorem at concrete documents. -/
theorem load_same_id_single_doc_witness :
    ((load_trace_data (load_trace_data [] (⟨"x", "v1"⟩ : MDoc)).1 ⟨"x", "v2"⟩).1.filter
        (fun x => x._id == (⟨"x", "v1"⟩ : MDoc)._id) = [(⟨"x", "v1"⟩ : MDoc)]) ∧
      ((load_trace_data [⟨"y", "b"⟩] ⟨"z", "c"⟩).1.map (fun x => x._id)).Nodup := by
  have h := load_same_id_single_doc ⟨"x", "v1"⟩ ⟨"x", "v2"⟩ rfl
  exact ⟨h.1, h.2.2.2.2.1 [⟨"y", "b"⟩] ⟨"z", "c"⟩ (by simp)⟩

/-- Counterexample to C6 as stated: with sample speeds 0.016 and 0.004
the reported spread is `round(0.016 - 0.004, 2) = 0.01`, which differs
both from reported max − reported min (`0.02 − 0.00 = 0.02`) and from
the exact max − min (`0.012`). -/
theorem transform_speed_spread_rounding_cex :
    ((transform_speed_data "t"
          [⟨1, "t", 1000, 1, 2 / 125, 200⟩, ⟨2, "t", 1000, 1, 1 / 250, 200⟩]).map
        (fun doc => (doc.speed_variance, doc.max_speed_mbps - doc.min_speed_mbps))) =
      some (1 / 100, 1 / 50) ∧
      pyMax [2 / 125, 1 / 250] - pyMin [2 / 125, 1 / 250] = 3 / 250 ∧
      (1 / 100 : ℚ) ≠ 1 / 50 ∧ (1 / 100 : ℚ) ≠ 3 / 250 := by
  have h1 : pyMax [(2 : ℚ) / 125, 1 / 250] = 2 / 125 := by
    show max ((2 : ℚ) / 125) (1 / 250) = 2 / 125
    exact max_eq_left (by norm_num)
  have h2 : pyMin [(2 : ℚ) / 125, 1 / 250] = 1 / 250 := by
    show min ((2 : ℚ) / 125) (1 / 250) = 1 / 250
    exact min_eq_right (by norm_num)
  have r1 : pyRound 2 ((3 : ℚ) / 250) = 1 / 100 := by
    unfold pyRound
    rw [show (3 : ℚ) / 250 * 10 ^ 2 = 6 / 5 by norm_num, rhe_eq_low 1 (by norm_num) (by norm_num)]
    norm_num
  have r2 : pyRound 2 ((2 : ℚ) / 125) = 1 / 50 := by
    unfold pyRound
    rw [show (2 : ℚ) / 125 * 10 ^ 2 = 8 / 5 by norm_num, rhe_eq_high 1 (by norm_num) (by norm_num)]
    norm_num
  have r3 : pyRound 2 ((1 : ℚ) / 250) = 0 := by
    unfold pyRound
    rw [show (1 : ℚ) / 250 * 10 ^ 2 = 2 / 5 by norm_num, rhe_eq_low 0 (by norm_num) (by norm_num)]
    norm_num
  refine ⟨?_, ?_, by norm_num, by norm_num⟩
  · show some (pyRound 2 (pyMax [(2 : ℚ) / 125, 1 / 250] - pyMin [(2 : ℚ) / 125, 1 / 250]),
        pyRound 2 (pyMax [(2 : ℚ) / 125, 1 / 250]) - pyRound 2 (pyMin [(2 : ℚ) / 125, 1 / 250])) =
      some ((1 : ℚ) / 100, (1 : ℚ) / 50)
    rw [h1, h2, show (2 : ℚ) / 125 - 1 / 250 = 3 / 250 by norm_num, r1, r2, r3]
    norm_num
  · rw [h1, h2]
    norm_num

/-- Amended C6: for every non-empty batch of N samples the aggregate
reports `test_count = N`, its reported average lies in the closed
interval of the reported minimum and maximum, and its spread field
equals `round(max − min, 2)` — which equals reported max − reported min
whenever every sample speed is an exact multiple of 0.01, as all speeds
produced by the extractor are. -/
theorem transform_speed_aggregate_props (t : String) (l : List SpeedSample) (doc : SpeedDoc)
    (h : transform_speed_data t l = some doc) :
    doc.test_count = l.length ∧
      doc.min_speed_mbps ≤ doc.average_speed_mbps ∧
      doc.average_speed_mbps ≤ doc.max_speed_mbps ∧
      doc.speed_variance =
        pyRound 2 (pyMax (l.map (fun s => s.speed_mbps)) -
          pyMin (l.map (fun s => s.speed_mbps))) ∧
      ((∀ s ∈ l, centi s.speed_mbps) →
        doc.speed_variance = doc.max_speed_mbps - doc.min_speed_mbps) := by
  cases l with
  | nil =>
    unfold transform_speed_data at h
    exact Option.noConfusion h
  | cons a rest =>
    unfold transform_speed_data at h
    rw [List.isEmpty_cons, if_neg (by simp : ¬(false = true))] at h
    cases Option.some.inj h
    refine ⟨rfl, ?_, ?_, rfl, ?_⟩
    · have h1 : pyMin ((a :: rest).map fun s => s.speed_mbps) ≤
          ((a :: rest).map fun s => s.speed_mbps).sum /
            ((((a :: rest).map fun s => s.speed_mbps).length : ℕ) : ℚ) := by
        rw [List.map_cons]
        exact pyMin_le_avg _ _
      exact pyRound_mono 2 h1
    · have h1 : ((a :: rest).map fun s => s.speed_mbps).sum /
          ((((a :: rest).map fun s => s.speed_mbps).length : ℕ) : ℚ) ≤
            pyMax ((a :: rest).map fun s => s.speed_mbps) := by
        rw [List.map_cons]
        exact avg_le_pyMax _ _
      exact pyRound_mono 2 h1
    · intro hc
      have hmem : ∀ q ∈ (a :: rest).map (fun s => s.speed_mbps), centi q := by
        intro q hq
        obtain ⟨s, hs, rfl⟩ := List.mem_map.1 hq
        exact hc s hs
      have hmax : centi (pyMax ((a :: rest).map fun s => s.speed_mbps)) := by
        apply hmem
        rw [List.map_cons]
        exact pyMax_mem _ _
      have hmin : centi (pyMin ((a :: rest).map fun s => s.speed_mbps)) := by
        apply hmem
        rw [List.map_cons]
        exact pyMin_mem _ _
      show pyRound 2 _ = pyRound 2 _ - pyRound 2 _
      rw [centi_pyRound (centi_sub hmax hmin), centi_pyRound hmax, centi_pyRound hmin]

/-- Witness for C6's amended theorem at the one-sample batch `[s1]`. -/
theorem transform_speed_aggregate_props_witness :
    transform_speed_data "T" [s1] = some sd1 ∧ sd1.test_count = 1 ∧
      sd1.min_speed_mbps ≤ sd1.average_speed_mbps ∧
      sd1.average_speed_mbps ≤ sd1.max_speed_mbps ∧
      sd1.speed_variance = sd1.max_speed_mbps - sd1.min_speed_mbps := by
  have h : transform_speed_data "T" [s1] = some sd1 := by
    have r5 : pyRound 2 (5 : ℚ) = 5 := pyRound_eq_of_int 2 5 500 (by norm_num)
    have r0 : pyRound 2 (0 : ℚ) = 0 := pyRound_eq_of_int 2 0 0 (by norm_num)
    simp [transform_speed_data, sd1, s1, pyMin, pyMax, r5, r0]
  have hp := transform_speed_aggregate_props "T" [s1] sd1 h
  refine ⟨h, hp.1, hp.2.1, hp.2.2.1, hp.2.2.2.2 ?_⟩
  intro s hs
  have : s = s1 := by simpa using hs
  rw [this]
  exact ⟨500, by norm_num [s1]⟩

/-- Claim C7: the speed transform returns the distinct sentinel `none`
exactly for the empty sample list, and the orchestrator never passes
that sentinel to the speed loader: every speed-load call a run makes
carries the real document the transform produced. -/
theorem transform_speed_empty_sentinel_guard :
    (∀ (t : String) (l : List SpeedSample), transform_speed_data t l = none ↔ l = []) ∧
      (∀ (env : PipelineEnv) (r : PipelineRun) (arg : Option SpeedDoc),
        run_etl_pipeline env = some r → r.speedLoadCall = some arg →
          ∃ doc, arg = some doc ∧
            transform_speed_data env.time env.speedData = some doc) := by
  constructor
  · intro t l
    constructor
    · intro h
      cases l with
      | nil => rfl
      | cons a rest =>
        unfold transform_speed_data at h
        rw [List.isEmpty_cons, if_neg (by simp : ¬(false = true))] at h
        exact Option.noConfusion h
    · rintro rfl
      rfl
  · intro env r arg h1 h2
    by_cases hc : env.connectOk = true
    · unfold run_etl_pipeline at h1
      rw [if_pos hc] at h1
      cases hd : dohStep env (traceStep env true) with
      | none => rw [hd] at h1; exact Option.noConfusion h1
      | some s2 =>
        rw [hd] at h1
        cases Option.some.inj h1
        rw [speedStep_eq] at h2
        exact speedCallOf_some h2
    · unfold run_etl_pipeline at h1
      rw [if_neg hc] at h1
      cases Option.some.inj h1
      exact Option.noConfusion h2

/-- Witness for C7: the empty batch, and the concrete run `e0` whose
speed-load call carries the document `sd1`. -/
theorem transform_speed_empty_sentinel_guard_witness :
    transform_speed_data "T" ([] : List SpeedSample) = none ∧
      run_etl_pipeline e0 = some ⟨true, some (some sd1)⟩ ∧
      (∃ doc, (some sd1 : Option SpeedDoc) = some doc ∧
        transform_speed_data e0.time e0.speedData = some doc) := by
  have r5 : pyRound 2 (5 : ℚ) = 5 := pyRound_eq_of_int 2 5 500 (by norm_num)
  have r0 : pyRound 2 (0 : ℚ) = 0 := pyRound_eq_of_int 2 0 0 (by norm_num)
  have hs : transform_speed_data "T" [s1] = some sd1 := by
    simp [transform_speed_data, sd1, s1, pyMin, pyMax, r5, r0]
  have h1 : run_etl_pipeline e0 = some ⟨true, some (some sd1)⟩ := by
    have hco : e0.connectOk = true := by rfl
    have hin : e0.includeSpeed = true := by rfl
    have hsp : speedStep e0 true = (true, some (some sd1)) := by
      unfold speedStep
      rw [if_pos hin]
      have he : e0.speedData = [s1] := rfl
      rw [he, List.isEmpty_cons, if_neg (by simp : ¬(false = true))]
      have ht : e0.time = "T" := rfl
      rw [ht, hs]
      have hlo : e0.speedLoadOk = true := by rfl
      show (if e0.speedLoadOk = true then true else false, some (some sd1)) =
        (true, some (some sd1))
      rw [if_pos hlo]
    unfold run_etl_pipeline
    rw [if_pos hco]
    have hds : dohStep e0 (traceStep e0 true) = some true := rfl
    rw [hds]
    show some (⟨(speedStep e0 true).1, (speedStep e0 true).2⟩ : PipelineRun) =
      some ⟨true, some (some sd1)⟩
    rw [hsp]
  exact ⟨(transform_speed_empty_sentinel_guard.1 "T" []).mpr rfl, h1,
    transform_speed_empty_sentinel_guard.2 e0 ⟨true, some (some sd1)⟩ (some sd1) h1 rfl⟩

/-- Counterexample to C2 as stated: with the storage connection up and
every source enabled, a DoH batch item whose `Question` array is empty
makes `transform_doh_data` raise; the exception escapes
`run_etl_pipeline` (embedding: `none`), so no success flag is returned
and the speed source — whose own extraction succeeded and whose
transform would have produced a document — is never attempted. -/
theorem run_etl_pipeline_doh_crash_cex :
    eBad.connectOk = true ∧ eBad.includeSpeed = true ∧
      (transform_speed_data eBad.time eBad.speedData).isSome = true ∧
      run_etl_pipeline eBad = none :=
  ⟨rfl, rfl, rfl, rfl⟩

/-- Amended C2: when the storage connection succeeds and the DoH
transform raises no exception, `run_etl_pipeline` attempts every
enabled source — its speed-load call is `speedCallOf`, a function of
the speed source's inputs alone, unaffected by earlier failures — and
the returned overall flag equals the conjunction of the per-source
success outcomes of all enabled sources; when the DoH source is
enabled and its transform raises, the run aborts with no flag and the
remaining source is not attempted. -/
theorem run_etl_pipeline_outcome (env : PipelineEnv) (h1 : env.connectOk = true) :
    ((transform_doh_data env.time env.dohData).isSome = true →
      run_etl_pipeline env =
        some ⟨traceSuccess env && dohSuccess env && speedSuccess env, speedCallOf env⟩) ∧
    (env.includeDoh = true → transform_doh_data env.time env.dohData = none →
      run_etl_pipeline env = none) := by
  constructor
  · intro h2
    unfold run_etl_pipeline
    rw [if_pos h1, traceStep_eq, Bool.and_true, dohStep_eq env (traceSuccess env) h2]
    show some (⟨(speedStep env (dohSuccess env && traceSuccess env)).1,
        (speedStep env (dohSuccess env && traceSuccess env)).2⟩ : PipelineRun) = _
    rw [speedStep_eq]
    cases traceSuccess env <;> cases dohSuccess env <;> cases speedSuccess env <;> rfl
  · intro hD ht
    unfold run_etl_pipeline
    rw [if_pos h1]
    have hds : dohStep env (traceStep env true) = none := by
      unfold dohStep
      rw [if_pos hD]
      cases hl : env.dohData with
      | nil =>
        rw [hl] at ht
        exact Option.noConfusion ht
      | cons r rest =>
        rw [hl] at ht
        rw [ht]
        simp
    rw [hds]

/-- Witness for C2's amended theorem: the non-raising run `e0` returns
the conjunction of the per-source outcomes, the raising run `eBad`
aborts. -/
theorem run_etl_pipeline_outcome_witness :
    run_etl_pipeline e0 =
        some ⟨traceSuccess e0 && dohSuccess e0 && speedSuccess e0, speedCallOf e0⟩ ∧
      run_etl_pipeline eBad = none :=
  ⟨(run_etl_pipeline_outcome e0 rfl).1 rfl,
    (run_etl_pipeline_outcome eBad rfl).2 rfl rfl⟩
